import Mathlib

/-!
# libsofa, `SOFANcFile.cpp`: the name-based access layer over a NetCDF file

A shallow embedding of `sofa::NetCDFFile` (src/libsofa/src/SOFANcFile.cpp).

* The storage objects of the NetCDF C++ library (`NcFile`, `NcVar`, `NcDim`, `NcGroupAtt`,
  `NcType`) are records holding what the class reads from them.
* A `std::multimap` returned by `getAtts` / `getDims` / `getVars` is the list of its
  (key, entry) pairs in iteration order.
* A `double *` destination is the sequence of memory cells reachable from the pointer:
  a function from the cell index to the value held there.
* The helpers of `sofa::NcUtils` (SOFANcUtils.h) and `sofa::smax` (SOFAUtils.h) are not among
  the sources; they are modelled from the specification and marked as such.
* The by-name getters `NcFile::getDim` / `NcFile::getAtt` of the storage library are the start
  of `equal_range(name)` on the multimap, whose keys are ordered by `std::less< std::string >`.
* A `std::ostream` is the text written to it so far.
-/

namespace sofa

/-! ## Storage layer -/

/-- Element types of the storage layer (`netCDF::NcType`). `noType` is the default-constructed
(null) type object. -/
inductive NcType where
  | noType
  | nc_BYTE
  | nc_CHAR
  | nc_SHORT
  | nc_INT
  | nc_FLOAT
  | nc_DOUBLE
  | nc_UBYTE
  | nc_USHORT
  | nc_UINT
  | nc_INT64
  | nc_UINT64
  | nc_STRING
  deriving DecidableEq, Repr

/-- A float64 value, identified by its 64-bit pattern; the layer only copies such values. -/
abbrev Double := Nat

/-- The memory cells reachable from a `double *`: cell index to the value held there. -/
abbrev Buffer := Nat → Double

/-- A dimension object (`netCDF::NcDim`): a named axis with an extent. -/
structure NcDim where
  isNull : Bool
  name : String
  size : Nat
  deriving DecidableEq, Repr

/-- The default-constructed dimension, `netCDF::NcDim()`. -/
def NcDim.null : NcDim := { isNull := true, name := "", size := 0 }

/-- The extent of the axis, `NcDim::getSize`. -/
def NcDim.getSize (dim : NcDim) : Nat := dim.size

/-- A global attribute object (`netCDF::NcGroupAtt`). -/
structure NcGroupAtt where
  isNull : Bool
  name : String
  type : NcType
  value : String
  deriving DecidableEq, Repr

/-- The default-constructed attribute, `netCDF::NcGroupAtt()`. -/
def NcGroupAtt.null : NcGroupAtt :=
  { isNull := true, name := "", type := NcType.noType, value := "" }

/-- A variable object (`netCDF::NcVar`): element type, the dimensions in declared order, and the
stored values, `data k` being the value at offset `k` of the contiguous (row-major) storage. -/
structure NcVar where
  isNull : Bool
  name : String
  type : NcType
  dims : List NcDim
  data : Nat → Double

/-- The default-constructed variable, `netCDF::NcVar()`. -/
def NcVar.null : NcVar :=
  { isNull := true, name := "", type := NcType.noType, dims := [], data := fun _ => 0 }

/-- The rank, `NcVar::getDimCount`. -/
def NcVar.getDimCount (var : NcVar) : Nat := var.dims.length

/-- The i-th dimension, `NcVar::getDim(i)`; a null dimension when there is none. -/
def NcVar.getDim (var : NcVar) (i : Nat) : NcDim := var.dims.getD i NcDim.null

/-- The axis sizes of a variable, in declared order. -/
def NcVar.shape (var : NcVar) : List Nat := var.dims.map NcDim.getSize

/-- The number of values a variable stores: the product of its axis sizes. -/
def NcVar.numVals (var : NcVar) : Nat := var.shape.prod

/-- The stored contents of a variable, in storage (row-major) order. -/
def NcVar.contents (var : NcVar) : List Double := (List.range var.numVals).map var.data

/-- The storage offset of the element at a multi-index, the last axis varying fastest. -/
def rowMajorOffset : List Nat → List Nat → Nat
  | _ :: sizes, i :: idx => i * sizes.prod + rowMajorOffset sizes idx
  | _, _ => 0

/-- The element of a variable at a multi-index over its declared dimensions. -/
def NcVar.elementAt (var : NcVar) (idx : List Nat) : Double :=
  var.data (rowMajorOffset var.shape idx)

/-- The whole-variable read `NcVar::getVar(double *)` of the storage library: the entire contents
of the variable are written to the cells starting at the pointer; no other cell changes. -/
def NcVar.getVar (var : NcVar) (values : Buffer) : Buffer :=
  fun k => if k < var.numVals then var.data k else values k

/-- The underlying storage (`netCDF::NcFile`): the three multimaps, each as the list of its
(key, entry) pairs in iteration order, and the three signed counts it reports. -/
structure NcFile where
  atts : List (String × NcGroupAtt)
  dims : List (String × NcDim)
  vars : List (String × NcVar)
  attCount : Int
  dimCount : Int
  varCount : Int

/-- The multimap of global attributes, `NcFile::getAtts`. -/
def NcFile.getAtts (file : NcFile) : List (String × NcGroupAtt) := file.atts

/-- The multimap of dimensions, `NcFile::getDims`. -/
def NcFile.getDims (file : NcFile) : List (String × NcDim) := file.dims

/-- The multimap of variables, `NcFile::getVars`. -/
def NcFile.getVars (file : NcFile) : List (String × NcVar) := file.vars

/-- The attribute count reported by the storage, `NcFile::getAttCount` (an `int`). -/
def NcFile.getAttCount (file : NcFile) : Int := file.attCount

/-- The dimension count reported by the storage, `NcFile::getDimCount` (an `int`). -/
def NcFile.getDimCount (file : NcFile) : Int := file.dimCount

/-- The variable count reported by the storage, `NcFile::getVarCount` (an `int`). -/
def NcFile.getVarCount (file : NcFile) : Int := file.varCount

/-! ## Helpers that are not among the sources -/

/-- Modelled from the spec: `sofa::smax` of SOFAUtils.h is missing; the count is "clamped to be
non-negative (... a negative/error sentinel ... must be floored to 0)", so `smax` is the larger
of its two arguments. -/
def smax (a b : Int) : Int := if a > b then a else b

namespace NcUtils

/-- Modelled from the spec: `sofa::NcUtils::IsValid` (attribute) of SOFANcUtils.h is missing;
an entry is valid when it is not the null sentinel ("`has(name)` ... defined as `lookup(name)`
being non-null"). -/
def IsValidAtt (att : NcGroupAtt) : Bool := !att.isNull

/-- Modelled from the spec: `sofa::NcUtils::IsValid` (dimension) of SOFANcUtils.h is missing;
an entry is valid when it is not the null sentinel. -/
def IsValidDim (dim : NcDim) : Bool := !dim.isNull

/-- Modelled from the spec: `sofa::NcUtils::IsValid` (variable) of SOFANcUtils.h is missing;
an entry is valid when it is not the null sentinel. -/
def IsValidVar (var : NcVar) : Bool := !var.isNull

/-- Modelled from the spec: `sofa::NcUtils::IsDouble` (variable) of SOFANcUtils.h is missing;
"report whether its element type equals ... float64 ... All predicates on a null entry return
false." -/
def IsDoubleVar (var : NcVar) : Bool :=
  if IsValidVar var = false then false else decide (var.type = NcType.nc_DOUBLE)

/-- Modelled from the spec: `sofa::NcUtils::GetDimensionality` of SOFANcUtils.h is missing;
"`dimensionality(variable) -> int`, returning -1 for a null/invalid variable", the rank
otherwise. -/
def GetDimensionality (var : NcVar) : Int :=
  if IsValidVar var = false then -1 else (var.getDimCount : Int)

/-- Modelled from the spec: `sofa::NcUtils::GetDimensions` of SOFANcUtils.h is missing;
"`dimensions(variable) -> ordered sequence of sizes`, one entry per axis in declared order;
empty sequence for a null variable". The first argument is what the output vector held. -/
def GetDimensions (_dims : List Nat) (var : NcVar) : List Nat :=
  if IsValidVar var = false then []
  else (List.range var.getDimCount).map (fun i => (var.getDim i).getSize)

/-- Modelled from the spec: `sofa::NcUtils::HasDimension` of SOFANcUtils.h is missing;
"true iff the variable is rank-1 and its single axis has exactly that size". -/
def HasDimension (dim : Nat) (var : NcVar) : Bool :=
  decide (GetDimensionality var = 1) && decide ((var.getDim 0).getSize = dim)

/-- Modelled from the spec: `sofa::NcUtils::HasDimensions` (two sizes) of SOFANcUtils.h is
missing; "true iff the rank equals the arity of the call (2 or 3) and each axis size
matches positionally, in order". -/
def HasDimensions2 (dim1 dim2 : Nat) (var : NcVar) : Bool :=
  decide (GetDimensionality var = 2)
    && decide ((var.getDim 0).getSize = dim1)
    && decide ((var.getDim 1).getSize = dim2)

/-- Modelled from the spec: `sofa::NcUtils::HasDimensions` (three sizes) of SOFANcUtils.h is
missing; "true iff the rank equals the arity of the call (2 or 3) and each axis size
matches positionally, in order". -/
def HasDimensions3 (dim1 dim2 dim3 : Nat) (var : NcVar) : Bool :=
  decide (GetDimensionality var = 3)
    && decide ((var.getDim 0).getSize = dim1)
    && decide ((var.getDim 1).getSize = dim2)
    && decide ((var.getDim 2).getSize = dim3)

end NcUtils

/-! ## `sofa::NetCDFFile` -/

/-- The container handle: the storage object and the path it was opened with. -/
structure NetCDFFile where
  file : NcFile
  filename : String

/-- The loop shared by the three lookups: walk the multimap from `begin()` to `end()` and return
the entry of the first pair whose key equals the queried name, the null object after the loop. -/
def firstMatch {α : Type} (nullObject : α) (queried : String) : List (String × α) → α
  | [] => nullObject
  | (key, entry) :: rest =>
    if key = queried then entry else firstMatch nullObject queried rest

namespace NetCDFFile

/-- The method `NetCDFFile::getAttribute`. -/
def getAttribute (self : NetCDFFile) (attributeName : String) : NcGroupAtt :=
  if attributeName = "" then NcGroupAtt.null
  else firstMatch NcGroupAtt.null attributeName self.file.getAtts

/-- The method `NetCDFFile::getDimension`. -/
def getDimension (self : NetCDFFile) (dimensionName : String) : NcDim :=
  if dimensionName = "" then NcDim.null
  else firstMatch NcDim.null dimensionName self.file.getDims

/-- The method `NetCDFFile::getVariable`. -/
def getVariable (self : NetCDFFile) (variableName : String) : NcVar :=
  if variableName = "" then NcVar.null
  else firstMatch NcVar.null variableName self.file.getVars

/-- The conversion `(unsigned int)` of an `int`: reduction modulo 2^32. -/
def toUnsignedInt (n : Int) : Nat := (n % 2 ^ 32).toNat

/-- The method `NetCDFFile::GetNumGlobalAttributes`. -/
def GetNumGlobalAttributes (self : NetCDFFile) : Nat :=
  let nattr := self.file.getAttCount
  toUnsignedInt (smax 0 nattr)

/-- The method `NetCDFFile::GetNumDimensions`. -/
def GetNumDimensions (self : NetCDFFile) : Nat :=
  let ndims := self.file.getDimCount
  toUnsignedInt (smax 0 ndims)

/-- The method `NetCDFFile::GetNumVariables`. -/
def GetNumVariables (self : NetCDFFile) : Nat :=
  let nvars := self.file.getVarCount
  toUnsignedInt (smax 0 nvars)

/-- The method `NetCDFFile::HasDimension`. -/
def HasDimension (self : NetCDFFile) (dimensionName : String) : Bool :=
  let dim := self.getDimension dimensionName
  NcUtils.IsValidDim dim

/-- The method `NetCDFFile::HasVariable`. -/
def HasVariable (self : NetCDFFile) (variableName : String) : Bool :=
  let var := self.getVariable variableName
  NcUtils.IsValidVar var

/-- The method `NetCDFFile::HasAttribute`. -/
def HasAttribute (self : NetCDFFile) (attributeName : String) : Bool :=
  let att := self.getAttribute attributeName
  NcUtils.IsValidAtt att

/-- The method `NetCDFFile::GetVariableDimensionality`. -/
def GetVariableDimensionality (self : NetCDFFile) (variableName : String) : Int :=
  let var := self.getVariable variableName
  NcUtils.GetDimensionality var

/-- The method `NetCDFFile::GetVariableDimensions`; `dims` is what the output vector held before
the call, the result what it holds afterwards. -/
def GetVariableDimensions (self : NetCDFFile) (dims : List Nat) (variableName : String) :
    List Nat :=
  let var := self.getVariable variableName
  NcUtils.GetDimensions dims var

/-- The method `NetCDFFile::VariableHasDimension`. -/
def VariableHasDimension (self : NetCDFFile) (dim : Nat) (variableName : String) : Bool :=
  let var := self.getVariable variableName
  NcUtils.HasDimension dim var

/-- The method `NetCDFFile::VariableHasDimensions`, two sizes. -/
def VariableHasDimensions2 (self : NetCDFFile) (dim1 dim2 : Nat) (variableName : String) :
    Bool :=
  let var := self.getVariable variableName
  NcUtils.HasDimensions2 dim1 dim2 var

/-- The method `NetCDFFile::VariableHasDimensions`, three sizes. -/
def VariableHasDimensions3 (self : NetCDFFile) (dim1 dim2 dim3 : Nat)
    (variableName : String) : Bool :=
  let var := self.getVariable variableName
  NcUtils.HasDimensions3 dim1 dim2 dim3 var

/-- The method `NetCDFFile::GetValues`, two sizes: the returned flag and the destination cells
after the call. -/
def GetValues2 (self : NetCDFFile) (values : Buffer) (dim1 dim2 : Nat)
    (variableName : String) : Bool × Buffer :=
  let var := self.getVariable variableName
  if NcUtils.IsValidVar var = false then (false, values)
  else if NcUtils.IsDoubleVar var = false then (false, values)
  else if NcUtils.HasDimensions2 dim1 dim2 var = false then (false, values)
  else (true, var.getVar values)

/-- The method `NetCDFFile::GetValues`, three sizes: the returned flag and the destination cells
after the call. -/
def GetValues3 (self : NetCDFFile) (values : Buffer) (dim1 dim2 dim3 : Nat)
    (variableName : String) : Bool × Buffer :=
  let var := self.getVariable variableName
  if NcUtils.IsValidVar var = false then (false, values)
  else if NcUtils.IsDoubleVar var = false then (false, values)
  else if NcUtils.HasDimensions3 dim1 dim2 dim3 var = false then (false, values)
  else (true, var.getVar values)

end NetCDFFile

/-! ## Concrete containers used to evaluate the definitions -/

/-- A valid dimension with the given name and extent. -/
def mkDim (name : String) (n : Nat) : NcDim := { isNull := false, name := name, size := n }

/-- A valid variable of the given type and shape whose stored value at offset k is base + k. -/
def mkVar (name : String) (type : NcType) (shape : List Nat) (base : Nat) : NcVar :=
  { isNull := false, name := name, type := type,
    dims := shape.map (mkDim "axis"), data := fun k => base + k }

/-- A character attribute. -/
def mkAtt (name value : String) : NcGroupAtt :=
  { isNull := false, name := name, type := NcType.nc_CHAR, value := value }

/-- A container with duplicate names in every registry, an entry stored under the empty name in
every registry, a float32 variable W, and float64 variables of rank 1, 2 and 3. -/
def sampleFile : NetCDFFile :=
  { filename := "sample.sofa",
    file :=
      { atts := [("", mkAtt "" "hidden"), ("Title", mkAtt "Title" "first"),
                 ("Title", mkAtt "Title" "second")],
        dims := [("", mkDim "" 9), ("M", mkDim "M" 3), ("M", mkDim "M" 5)],
        vars := [("", mkVar "" NcType.nc_DOUBLE [1] 0),
                 ("A", mkVar "A" NcType.nc_DOUBLE [2, 3] 10),
                 ("A", mkVar "A" NcType.nc_DOUBLE [4] 50),
                 ("B", mkVar "B" NcType.nc_DOUBLE [2, 2, 2] 20),
                 ("S", mkVar "S" NcType.nc_DOUBLE [] 70),
                 ("V", mkVar "V" NcType.nc_DOUBLE [3] 30),
                 ("W", mkVar "W" NcType.nc_FLOAT [2, 3] 40)],
        attCount := 3, dimCount := 3, varCount := 7 } }

/-- A destination whose cell k holds 100 + k before any call. -/
def sampleBuffer : Buffer := fun k => 100 + k

/-- A container whose storage reports the error sentinel -1 for every count. -/
def faultyFile : NetCDFFile :=
  { filename := "faulty.sofa",
    file := { atts := [], dims := [], vars := [], attCount := -1, dimCount := -1,
              varCount := -1 } }

/-! ## The by-name getters of the storage library -/

/-- The key order of a `std::multimap< std::string, T >`, on character sequences:
lexicographic comparison, a proper initial segment being smaller. -/
def charsLess : List Char → List Char → Bool
  | [], [] => false
  | [], _ :: _ => true
  | _ :: _, [] => false
  | a :: as, b :: bs => if a < b then true else if b < a then false else charsLess as bs

/-- The key order of a `std::multimap< std::string, T >`, `std::less< std::string >`. -/
def stringLess (a b : String) : Bool := charsLess a.data b.data

/-- The ordering invariant of a `std::multimap`: in iteration order no key is smaller than a key
met before it. -/
def KeysOrdered {α : Type} (registry : List (String × α)) : Prop :=
  registry.Pairwise (fun p q => stringLess q.1 p.1 = false)

/-- The ordering invariant can be checked on a concrete multimap. -/
instance KeysOrdered.decidable {α : Type} (registry : List (String × α)) :
    Decidable (KeysOrdered registry) := by
  unfold KeysOrdered
  infer_instance

/-- The by-name getters `NcFile::getDim(name)` and `NcFile::getAtt(name)` of the storage library
take `equal_range(name)` on the multimap and return the entry at the start of the range, the
null object when the range is empty. The start of the range is the first pair, in iteration
order, whose key is not smaller than the name; the range is empty when that pair has another
key or when there is no such pair. -/
def equalRangeFirst {α : Type} (nullObject : α) (queried : String) : List (String × α) → α
  | [] => nullObject
  | (key, entry) :: rest =>
    if stringLess key queried = true then equalRangeFirst nullObject queried rest
    else if key = queried then entry
    else nullObject

/-- The by-name getter `NcFile::getDim(name)` of the storage library. -/
def NcFile.getDim (file : NcFile) (name : String) : NcDim :=
  equalRangeFirst NcDim.null name file.getDims

/-- The by-name getter `NcFile::getAtt(name)` of the storage library. -/
def NcFile.getAtt (file : NcFile) (name : String) : NcGroupAtt :=
  equalRangeFirst NcGroupAtt.null name file.getAtts

/-- The type object of an attribute, `NcGroupAtt::getType`. -/
def NcGroupAtt.getType (att : NcGroupAtt) : NcType := att.type

/-- The type object of a variable, `NcVar::getType`. -/
def NcVar.getType (var : NcVar) : NcType := var.type

/-! ## Further helpers that are not among the sources -/

namespace NcUtils

/-- Modelled from the spec: `sofa::NcUtils::GetType` (attribute) of SOFANcUtils.h is missing;
"Get type returns a distinguished no-type value for a null entry, never raises", the element
type of the entry otherwise. -/
def GetTypeAtt (att : NcGroupAtt) : NcType :=
  if IsValidAtt att = false then NcType.noType else att.getType

/-- Modelled from the spec: `sofa::NcUtils::GetType` (variable) of SOFANcUtils.h is missing;
"Get type returns a distinguished no-type value for a null entry, never raises", the element
type of the entry otherwise. -/
def GetTypeVar (var : NcVar) : NcType :=
  if IsValidVar var = false then NcType.noType else var.getType

/-- Modelled from the spec: `sofa::NcUtils::CheckType` (attribute) of SOFANcUtils.h is missing;
"report whether its element type equals ... All predicates on a null entry return false." -/
def CheckTypeAtt (att : NcGroupAtt) (type_ : NcType) : Bool :=
  if IsValidAtt att = false then false else decide (att.getType = type_)

/-- Modelled from the spec: `sofa::NcUtils::CheckType` (variable) of SOFANcUtils.h is missing;
"report whether its element type equals ... All predicates on a null entry return false." -/
def CheckTypeVar (var : NcVar) (type_ : NcType) : Bool :=
  if IsValidVar var = false then false else decide (var.getType = type_)

/-- Modelled from the spec: `sofa::NcUtils::IsFloat` (attribute) of SOFANcUtils.h is missing;
the element type equals float32, false on a null entry. -/
def IsFloatAtt (att : NcGroupAtt) : Bool := CheckTypeAtt att NcType.nc_FLOAT

/-- Modelled from the spec: `sofa::NcUtils::IsDouble` (attribute) of SOFANcUtils.h is missing;
the element type equals float64, false on a null entry. -/
def IsDoubleAtt (att : NcGroupAtt) : Bool := CheckTypeAtt att NcType.nc_DOUBLE

/-- Modelled from the spec: `sofa::NcUtils::IsByte` (attribute) of SOFANcUtils.h is missing;
the element type equals signed-byte, false on a null entry. -/
def IsByteAtt (att : NcGroupAtt) : Bool := CheckTypeAtt att NcType.nc_BYTE

/-- Modelled from the spec: `sofa::NcUtils::IsChar` (attribute) of SOFANcUtils.h is missing;
the element type equals character, false on a null entry. -/
def IsCharAtt (att : NcGroupAtt) : Bool := CheckTypeAtt att NcType.nc_CHAR

/-- Modelled from the spec: `sofa::NcUtils::IsShort` (attribute) of SOFANcUtils.h is missing;
the element type equals int16, false on a null entry. -/
def IsShortAtt (att : NcGroupAtt) : Bool := CheckTypeAtt att NcType.nc_SHORT

/-- Modelled from the spec: `sofa::NcUtils::IsInt` (attribute) of SOFANcUtils.h is missing;
the element type equals int32, false on a null entry. -/
def IsIntAtt (att : NcGroupAtt) : Bool := CheckTypeAtt att NcType.nc_INT

/-- Modelled from the spec: `sofa::NcUtils::IsInt64` (attribute) of SOFANcUtils.h is missing;
the element type equals int64, false on a null entry. -/
def IsInt64Att (att : NcGroupAtt) : Bool := CheckTypeAtt att NcType.nc_INT64

/-- Modelled from the spec: `sofa::NcUtils::GetAttributeValueAsString` of SOFANcUtils.h is
missing; the string value of an attribute entry is the value payload the entry carries. -/
def GetAttributeValueAsString (att : NcGroupAtt) : String := att.value

end NcUtils

/-! ## `sofa::NetCDFFile`, continued -/

namespace NetCDFFile

/-- The method `NetCDFFile::GetDimension`: the value returned, and the dimension objects whose
size the body asked of the storage (`NcDim::getSize`) after the `HasDimension` test. -/
def GetDimension (self : NetCDFFile) (dimensionName : String) : Nat × List NcDim :=
  if self.HasDimension dimensionName = false then (0, [])
  else
    let dim := self.file.getDim dimensionName
    (dim.getSize, [dim])

/-- The method `NetCDFFile::GetAttributeType`. -/
def GetAttributeType (self : NetCDFFile) (attributeName : String) : NcType :=
  let att := self.getAttribute attributeName
  NcUtils.GetTypeAtt att

/-- The method `NetCDFFile::GetVariableType`. -/
def GetVariableType (self : NetCDFFile) (variableName : String) : NcType :=
  let var := self.getVariable variableName
  NcUtils.GetTypeVar var

/-- The method `NetCDFFile::HasVariableType`. -/
def HasVariableType (self : NetCDFFile) (type_ : NcType) (variableName : String) : Bool :=
  let var := self.getVariable variableName
  NcUtils.CheckTypeVar var type_

/-- The method `NetCDFFile::GetAttributeValueAsString`. -/
def GetAttributeValueAsString (self : NetCDFFile) (attributeName : String) : String :=
  if self.HasAttribute attributeName = false then ""
  else
    let att := self.file.getAtt attributeName
    NcUtils.GetAttributeValueAsString att

/-- The method `NetCDFFile::IsAttributeFloat`. -/
def IsAttributeFloat (self : NetCDFFile) (attributeName : String) : Bool :=
  let attr := self.getAttribute attributeName
  NcUtils.IsFloatAtt attr

/-- The method `NetCDFFile::IsAttributeDouble`. -/
def IsAttributeDouble (self : NetCDFFile) (attributeName : String) : Bool :=
  let attr := self.getAttribute attributeName
  NcUtils.IsDoubleAtt attr

/-- The method `NetCDFFile::IsAttributeByte`. -/
def IsAttributeByte (self : NetCDFFile) (attributeName : String) : Bool :=
  let attr := self.getAttribute attributeName
  NcUtils.IsByteAtt attr

/-- The method `NetCDFFile::IsAttributeChar`. -/
def IsAttributeChar (self : NetCDFFile) (attributeName : String) : Bool :=
  let attr := self.getAttribute attributeName
  NcUtils.IsCharAtt attr

/-- The method `NetCDFFile::IsAttributeShort`. -/
def IsAttributeShort (self : NetCDFFile) (attributeName : String) : Bool :=
  let attr := self.getAttribute attributeName
  NcUtils.IsShortAtt attr

/-- The method `NetCDFFile::IsAttributeInt`. -/
def IsAttributeInt (self : NetCDFFile) (attributeName : String) : Bool :=
  let attr := self.getAttribute attributeName
  NcUtils.IsIntAtt attr

/-- The method `NetCDFFile::IsAttributeInt64`. -/
def IsAttributeInt64 (self : NetCDFFile) (attributeName : String) : Bool :=
  let attr := self.getAttribute attributeName
  NcUtils.IsInt64Att attr

/-- The method `NetCDFFile::PrintAllVariables`; `output` is the text the stream holds before the
call, the result the text it holds afterwards. -/
def PrintAllVariables (self : NetCDFFile) (output : String) : String :=
  let vars := self.file.getVars
  vars.foldl (fun output it =>
    let varName := it.1
    let dimensions := self.GetVariableDimensions [] varName
    let output := output ++ varName ++ " = " ++ "("
    let output := (List.range dimensions.length).foldl (fun output k =>
      let output := output ++ toString (dimensions.getD k 0)
      if k < dimensions.length - 1 then output ++ "," else output) output
    output ++ ")" ++ "\n") output

end NetCDFFile

/-- The dump of the variables as the specification words it: one line per entry of the registry,
in registry order: the name, " = (", the axis sizes of that entry joined by ",", ")" and a
newline. -/
def dumpVariablesSpec (vars : List (String × NcVar)) : String :=
  String.join (vars.map (fun p =>
    p.1 ++ " = (" ++ ",".intercalate (p.2.shape.map toString) ++ ")" ++ "\n"))

/-- A container whose variable registry holds two entries named A, of shapes (2, 3) and (4). -/
def duplicateVarsFile : NetCDFFile :=
  { filename := "duplicate.sofa",
    file :=
      { atts := [], dims := [],
        vars := [("A", mkVar "A" NcType.nc_DOUBLE [2, 3] 10),
                 ("A", mkVar "A" NcType.nc_DOUBLE [4] 50)],
        attCount := 0, dimCount := 0, varCount := 2 } }

/-- A container whose variable registry has no repeated name. -/
def distinctVarsFile : NetCDFFile :=
  { filename := "distinct.sofa",
    file :=
      { atts := [], dims := [],
        vars := [("B", mkVar "B" NcType.nc_DOUBLE [2, 2, 2] 20),
                 ("S", mkVar "S" NcType.nc_DOUBLE [] 70),
                 ("V", mkVar "V" NcType.nc_DOUBLE [3] 30)],
        attCount := 0, dimCount := 0, varCount := 3 } }

/-! ## The lookup loop -/

theorem firstMatch_of_absent {α : Type} (nullObject : α) (queried : String)
    (registry : List (String × α)) (h : ∀ p ∈ registry, p.1 ≠ queried) :
    firstMatch nullObject queried registry = nullObject := by
  induction registry with
  | nil => rfl
  | cons p rest ih =>
    obtain ⟨key, entry⟩ := p
    have hkey : key ≠ queried := h (key, entry) (List.mem_cons_self _ _)
    have hrest : ∀ q ∈ rest, q.1 ≠ queried := fun q hq => h q (List.mem_cons_of_mem _ hq)
    simp [firstMatch, hkey, ih hrest]

theorem firstMatch_of_present {α : Type} (nullObject : α) (queried : String)
    (registry : List (String × α)) (h : ∃ p ∈ registry, p.1 = queried) :
    ∃ before entry after, registry = before ++ (queried, entry) :: after
      ∧ (∀ p ∈ before, p.1 ≠ queried)
      ∧ firstMatch nullObject queried registry = entry := by
  induction registry with
  | nil =>
    obtain ⟨p, hp, _⟩ := h
    exact absurd hp (List.not_mem_nil p)
  | cons p rest ih =>
    obtain ⟨key, entry⟩ := p
    by_cases hkey : key = queried
    · subst hkey
      exact ⟨[], entry, rest, rfl, by simp, by simp [firstMatch]⟩
    · have hrest : ∃ q ∈ rest, q.1 = queried := by
        obtain ⟨q, hq, hqn⟩ := h
        rcases List.mem_cons.mp hq with hhead | htail
        · subst hhead
          exact absurd hqn hkey
        · exact ⟨q, htail, hqn⟩
      obtain ⟨before, e, after, hsplit, hbefore, hfound⟩ := ih hrest
      refine ⟨(key, entry) :: before, e, after, by simp [hsplit], ?_, ?_⟩
      · intro q hq
        rcases List.mem_cons.mp hq with hhead | htail
        · subst hhead
          exact hkey
        · exact hbefore q htail
      · simp [firstMatch, hkey, hfound]

/-! ## The shape helpers -/

theorem NcUtils.GetDimensions_of_valid (dims : List Nat) (var : NcVar)
    (h : var.isNull = false) : NcUtils.GetDimensions dims var = var.shape := by
  have hget : ∀ l : List NcDim,
      (List.range l.length).map (fun i => (l.getD i NcDim.null).getSize)
        = l.map NcDim.getSize := by
    intro l
    apply List.ext_getElem
    · simp
    · intro i h1 h2
      simp at h1
      simp [List.getD_eq_getElem?_getD, List.getElem?_eq_getElem h1]
  have hvar := hget var.dims
  simpa [NcUtils.GetDimensions, NcUtils.IsValidVar, h, NcVar.getDimCount, NcVar.getDim,
    NcVar.shape] using hvar

theorem NcUtils.HasDimension_iff (dim : Nat) (var : NcVar) :
    NcUtils.HasDimension dim var = true ↔ var.isNull = false ∧ var.shape = [dim] := by
  obtain ⟨isNull, name, type, dims, data⟩ := var
  cases isNull
  · match dims with
    | [] => simp [NcUtils.HasDimension, NcUtils.GetDimensionality, NcUtils.IsValidVar,
        NcVar.getDimCount, NcVar.getDim, NcVar.shape]
    | [a] => simp [NcUtils.HasDimension, NcUtils.GetDimensionality, NcUtils.IsValidVar,
        NcVar.getDimCount, NcVar.getDim, NcVar.shape]
    | a :: b :: rest =>
      simp [NcUtils.HasDimension, NcUtils.GetDimensionality, NcUtils.IsValidVar,
        NcVar.getDimCount, NcVar.getDim, NcVar.shape]
      omega
  · simp [NcUtils.HasDimension, NcUtils.GetDimensionality, NcUtils.IsValidVar]

theorem NcUtils.HasDimensions2_iff (dim1 dim2 : Nat) (var : NcVar) :
    NcUtils.HasDimensions2 dim1 dim2 var = true
      ↔ var.isNull = false ∧ var.shape = [dim1, dim2] := by
  obtain ⟨isNull, name, type, dims, data⟩ := var
  cases isNull
  · match dims with
    | [] => simp [NcUtils.HasDimensions2, NcUtils.GetDimensionality, NcUtils.IsValidVar,
        NcVar.getDimCount, NcVar.getDim, NcVar.shape]
    | [a] => simp [NcUtils.HasDimensions2, NcUtils.GetDimensionality, NcUtils.IsValidVar,
        NcVar.getDimCount, NcVar.getDim, NcVar.shape]
    | [a, b] => simp [NcUtils.HasDimensions2, NcUtils.GetDimensionality, NcUtils.IsValidVar,
        NcVar.getDimCount, NcVar.getDim, NcVar.shape]
    | a :: b :: c :: rest =>
      simp [NcUtils.HasDimensions2, NcUtils.GetDimensionality, NcUtils.IsValidVar,
        NcVar.getDimCount, NcVar.getDim, NcVar.shape]
      omega
  · simp [NcUtils.HasDimensions2, NcUtils.GetDimensionality, NcUtils.IsValidVar]

theorem NcUtils.HasDimensions3_iff (dim1 dim2 dim3 : Nat) (var : NcVar) :
    NcUtils.HasDimensions3 dim1 dim2 dim3 var = true
      ↔ var.isNull = false ∧ var.shape = [dim1, dim2, dim3] := by
  obtain ⟨isNull, name, type, dims, data⟩ := var
  cases isNull
  · match dims with
    | [] => simp [NcUtils.HasDimensions3, NcUtils.GetDimensionality, NcUtils.IsValidVar,
        NcVar.getDimCount, NcVar.getDim, NcVar.shape]
    | [a] => simp [NcUtils.HasDimensions3, NcUtils.GetDimensionality, NcUtils.IsValidVar,
        NcVar.getDimCount, NcVar.getDim, NcVar.shape]
    | [a, b] => simp [NcUtils.HasDimensions3, NcUtils.GetDimensionality, NcUtils.IsValidVar,
        NcVar.getDimCount, NcVar.getDim, NcVar.shape]
    | [a, b, c] => simp [NcUtils.HasDimensions3, NcUtils.GetDimensionality,
        NcUtils.IsValidVar, NcVar.getDimCount, NcVar.getDim, NcVar.shape, and_assoc]
    | a :: b :: c :: d :: rest =>
      simp [NcUtils.HasDimensions3, NcUtils.GetDimensionality, NcUtils.IsValidVar,
        NcVar.getDimCount, NcVar.getDim, NcVar.shape]
      omega
  · simp [NcUtils.HasDimensions3, NcUtils.GetDimensionality, NcUtils.IsValidVar]

/-! ## The bulk value reader -/

theorem GetValues2_of_accepted (self : NetCDFFile) (values : Buffer) (dim1 dim2 : Nat)
    (variableName : String) (hvalid : (self.getVariable variableName).isNull = false)
    (htype : (self.getVariable variableName).type = NcType.nc_DOUBLE)
    (hshape : (self.getVariable variableName).shape = [dim1, dim2]) :
    self.GetValues2 values dim1 dim2 variableName
      = (true, (self.getVariable variableName).getVar values) := by
  have hdims := (NcUtils.HasDimensions2_iff dim1 dim2 _).mpr ⟨hvalid, hshape⟩
  simp [NetCDFFile.GetValues2, NcUtils.IsValidVar, NcUtils.IsDoubleVar, hvalid, htype, hdims]

theorem GetValues3_of_accepted (self : NetCDFFile) (values : Buffer) (dim1 dim2 dim3 : Nat)
    (variableName : String) (hvalid : (self.getVariable variableName).isNull = false)
    (htype : (self.getVariable variableName).type = NcType.nc_DOUBLE)
    (hshape : (self.getVariable variableName).shape = [dim1, dim2, dim3]) :
    self.GetValues3 values dim1 dim2 dim3 variableName
      = (true, (self.getVariable variableName).getVar values) := by
  have hdims := (NcUtils.HasDimensions3_iff dim1 dim2 dim3 _).mpr ⟨hvalid, hshape⟩
  simp [NetCDFFile.GetValues3, NcUtils.IsValidVar, NcUtils.IsDoubleVar, hvalid, htype, hdims]

theorem GetValues2_of_refused (self : NetCDFFile) (values : Buffer) (dim1 dim2 : Nat)
    (variableName : String)
    (h : (self.getVariable variableName).isNull = true
      ∨ (self.getVariable variableName).type ≠ NcType.nc_DOUBLE
      ∨ (self.getVariable variableName).shape ≠ [dim1, dim2]) :
    self.GetValues2 values dim1 dim2 variableName = (false, values) := by
  have hdims := NcUtils.HasDimensions2_iff dim1 dim2 (self.getVariable variableName)
  unfold NetCDFFile.GetValues2
  simp only [NcUtils.IsValidVar, NcUtils.IsDoubleVar]
  by_cases hnull : (self.getVariable variableName).isNull = true
  · simp [hnull]
  · replace hnull : (self.getVariable variableName).isNull = false := by simpa using hnull
    by_cases htype : (self.getVariable variableName).type = NcType.nc_DOUBLE
    · have hshape : (self.getVariable variableName).shape ≠ [dim1, dim2] := by
        rcases h with h | h | h
        · rw [hnull] at h
          exact absurd h (by decide)
        · exact absurd htype h
        · exact h
      have hno :
          NcUtils.HasDimensions2 dim1 dim2 (self.getVariable variableName) = false := by
        cases hd : NcUtils.HasDimensions2 dim1 dim2 (self.getVariable variableName)
        · rfl
        · exact absurd (hdims.mp hd).2 hshape
      simp [hnull, htype, hno]
    · simp [hnull, htype]

theorem GetValues3_of_refused (self : NetCDFFile) (values : Buffer) (dim1 dim2 dim3 : Nat)
    (variableName : String)
    (h : (self.getVariable variableName).isNull = true
      ∨ (self.getVariable variableName).type ≠ NcType.nc_DOUBLE
      ∨ (self.getVariable variableName).shape ≠ [dim1, dim2, dim3]) :
    self.GetValues3 values dim1 dim2 dim3 variableName = (false, values) := by
  have hdims := NcUtils.HasDimensions3_iff dim1 dim2 dim3 (self.getVariable variableName)
  unfold NetCDFFile.GetValues3
  simp only [NcUtils.IsValidVar, NcUtils.IsDoubleVar]
  by_cases hnull : (self.getVariable variableName).isNull = true
  · simp [hnull]
  · replace hnull : (self.getVariable variableName).isNull = false := by simpa using hnull
    by_cases htype : (self.getVariable variableName).type = NcType.nc_DOUBLE
    · have hshape : (self.getVariable variableName).shape ≠ [dim1, dim2, dim3] := by
        rcases h with h | h | h
        · rw [hnull] at h
          exact absurd h (by decide)
        · exact absurd htype h
        · exact h
      have hno :
          NcUtils.HasDimensions3 dim1 dim2 dim3 (self.getVariable variableName) = false := by
        cases hd : NcUtils.HasDimensions3 dim1 dim2 dim3 (self.getVariable variableName)
        · rfl
        · exact absurd (hdims.mp hd).2 hshape
      simp [hnull, htype, hno]
    · simp [hnull, htype]

/-- A true return of the two-size read means the three guards passed. -/
theorem GetValues2_true_inv (self : NetCDFFile) (values : Buffer) (dim1 dim2 : Nat)
    (variableName : String) (h : (self.GetValues2 values dim1 dim2 variableName).1 = true) :
    (self.getVariable variableName).isNull = false
      ∧ (self.getVariable variableName).type = NcType.nc_DOUBLE
      ∧ (self.getVariable variableName).shape = [dim1, dim2] := by
  by_contra hcon
  have hfail : (self.getVariable variableName).isNull = true
      ∨ (self.getVariable variableName).type ≠ NcType.nc_DOUBLE
      ∨ (self.getVariable variableName).shape ≠ [dim1, dim2] := by
    by_cases h1 : (self.getVariable variableName).isNull = true
    · exact Or.inl h1
    · by_cases h2 : (self.getVariable variableName).type = NcType.nc_DOUBLE
      · by_cases h3 : (self.getVariable variableName).shape = [dim1, dim2]
        · exact absurd ⟨by simpa using h1, h2, h3⟩ hcon
        · exact Or.inr (Or.inr h3)
      · exact Or.inr (Or.inl h2)
  rw [GetValues2_of_refused self values dim1 dim2 variableName hfail] at h
  simp at h

/-- A true return of the three-size read means the three guards passed. -/
theorem GetValues3_true_inv (self : NetCDFFile) (values : Buffer) (dim1 dim2 dim3 : Nat)
    (variableName : String)
    (h : (self.GetValues3 values dim1 dim2 dim3 variableName).1 = true) :
    (self.getVariable variableName).isNull = false
      ∧ (self.getVariable variableName).type = NcType.nc_DOUBLE
      ∧ (self.getVariable variableName).shape = [dim1, dim2, dim3] := by
  by_contra hcon
  have hfail : (self.getVariable variableName).isNull = true
      ∨ (self.getVariable variableName).type ≠ NcType.nc_DOUBLE
      ∨ (self.getVariable variableName).shape ≠ [dim1, dim2, dim3] := by
    by_cases h1 : (self.getVariable variableName).isNull = true
    · exact Or.inl h1
    · by_cases h2 : (self.getVariable variableName).type = NcType.nc_DOUBLE
      · by_cases h3 : (self.getVariable variableName).shape = [dim1, dim2, dim3]
        · exact absurd ⟨by simpa using h1, h2, h3⟩ hcon
        · exact Or.inr (Or.inr h3)
      · exact Or.inr (Or.inl h2)
  rw [GetValues3_of_refused self values dim1 dim2 dim3 variableName hfail] at h
  simp at h

theorem NcVar.getVar_contents (var : NcVar) (values : Buffer) :
    (List.range var.numVals).map (var.getVar values) = var.contents := by
  unfold NcVar.contents
  apply List.map_congr_left
  intro k hk
  have hlt : k < var.numVals := List.mem_range.mp hk
  simp [NcVar.getVar, hlt]

theorem offset2_lt (dim1 dim2 i j : Nat) (hi : i < dim1) (hj : j < dim2) :
    i * dim2 + j < dim1 * dim2 := by
  have h1 : (i + 1) * dim2 ≤ dim1 * dim2 := Nat.mul_le_mul_right dim2 hi
  have h2 : (i + 1) * dim2 = i * dim2 + dim2 := by ring
  omega

theorem offset3_lt (dim1 dim2 dim3 i j k : Nat) (hi : i < dim1) (hj : j < dim2)
    (hk : k < dim3) : (i * dim2 + j) * dim3 + k < dim1 * dim2 * dim3 :=
  offset2_lt (dim1 * dim2) dim3 (i * dim2 + j) k (offset2_lt dim1 dim2 i j hi hj) hk

/-! ## Claims on the bulk value reader -/

/-- C1: when the looked-up variable is null, or its element type is not float64, or its shape is
not exactly (dim1, dim2) (respectively (dim1, dim2, dim3)), GetValues returns false and every
cell of the destination holds what it held before the call. -/
theorem GetValues_refusal_leaves_destination (self : NetCDFFile) (values : Buffer)
    (dim1 dim2 dim3 : Nat) (variableName : String) :
    (((self.getVariable variableName).isNull = true
        ∨ (self.getVariable variableName).type ≠ NcType.nc_DOUBLE
        ∨ (self.getVariable variableName).shape ≠ [dim1, dim2]) →
      (self.GetValues2 values dim1 dim2 variableName).1 = false
        ∧ ∀ k, (self.GetValues2 values dim1 dim2 variableName).2 k = values k)
    ∧ (((self.getVariable variableName).isNull = true
        ∨ (self.getVariable variableName).type ≠ NcType.nc_DOUBLE
        ∨ (self.getVariable variableName).shape ≠ [dim1, dim2, dim3]) →
      (self.GetValues3 values dim1 dim2 dim3 variableName).1 = false
        ∧ ∀ k, (self.GetValues3 values dim1 dim2 dim3 variableName).2 k = values k) := by
  constructor
  · intro h
    rw [GetValues2_of_refused self values dim1 dim2 variableName h]
    exact ⟨rfl, fun _ => rfl⟩
  · intro h
    rw [GetValues3_of_refused self values dim1 dim2 dim3 variableName h]
    exact ⟨rfl, fun _ => rfl⟩

/-- C1 on the sample container: W is float32, so the two-size read of W is refused; the first A
has shape (2, 3), so the three-size read of A with sizes (2, 3, 1) is refused. -/
theorem GetValues_refusal_leaves_destination_witness :
    ((sampleFile.getVariable "W").type ≠ NcType.nc_DOUBLE
      ∧ (sampleFile.GetValues2 sampleBuffer 2 3 "W").1 = false
      ∧ ∀ k, (sampleFile.GetValues2 sampleBuffer 2 3 "W").2 k = sampleBuffer k)
    ∧ ((sampleFile.getVariable "A").shape ≠ [2, 3, 1]
      ∧ (sampleFile.GetValues3 sampleBuffer 2 3 1 "A").1 = false
      ∧ ∀ k, (sampleFile.GetValues3 sampleBuffer 2 3 1 "A").2 k = sampleBuffer k) :=
  ⟨⟨by decide,
      (GetValues_refusal_leaves_destination sampleFile sampleBuffer 2 3 1 "W").1
        (Or.inr (Or.inl (by decide)))⟩,
    ⟨by decide,
      (GetValues_refusal_leaves_destination sampleFile sampleBuffer 2 3 1 "A").2
        (Or.inr (Or.inr (by decide)))⟩⟩

/-- C2: when the looked-up variable is valid, float64 and of shape (dim1, dim2) (respectively
(dim1, dim2, dim3)), GetValues returns true and the first dim1*dim2 (respectively
dim1*dim2*dim3) cells of the destination are the stored contents of the variable, the element at
multi-index (i, j) (respectively (i, j, k)) lying at the row-major offset. -/
theorem GetValues_copies_contents (self : NetCDFFile) (values : Buffer)
    (dim1 dim2 dim3 : Nat) (variableName : String) :
    (((self.getVariable variableName).isNull = false
        ∧ (self.getVariable variableName).type = NcType.nc_DOUBLE
        ∧ (self.getVariable variableName).shape = [dim1, dim2]) →
      (self.GetValues2 values dim1 dim2 variableName).1 = true
        ∧ (List.range (dim1 * dim2)).map (self.GetValues2 values dim1 dim2 variableName).2
            = (self.getVariable variableName).contents
        ∧ ∀ i j, i < dim1 → j < dim2 →
            (self.GetValues2 values dim1 dim2 variableName).2 (i * dim2 + j)
              = (self.getVariable variableName).elementAt [i, j])
    ∧ (((self.getVariable variableName).isNull = false
        ∧ (self.getVariable variableName).type = NcType.nc_DOUBLE
        ∧ (self.getVariable variableName).shape = [dim1, dim2, dim3]) →
      (self.GetValues3 values dim1 dim2 dim3 variableName).1 = true
        ∧ (List.range (dim1 * dim2 * dim3)).map
              (self.GetValues3 values dim1 dim2 dim3 variableName).2
            = (self.getVariable variableName).contents
        ∧ ∀ i j k, i < dim1 → j < dim2 → k < dim3 →
            (self.GetValues3 values dim1 dim2 dim3 variableName).2
                ((i * dim2 + j) * dim3 + k)
              = (self.getVariable variableName).elementAt [i, j, k]) := by
  constructor
  · rintro ⟨hvalid, htype, hshape⟩
    have hnum : (self.getVariable variableName).numVals = dim1 * dim2 := by
      simp [NcVar.numVals, hshape]
    rw [GetValues2_of_accepted self values dim1 dim2 variableName hvalid htype hshape]
    refine ⟨rfl, ?_, ?_⟩
    · rw [← hnum]
      exact NcVar.getVar_contents _ values
    · intro i j hi hj
      have hlt := offset2_lt dim1 dim2 i j hi hj
      simp [NcVar.getVar, NcVar.elementAt, hnum, hlt, hshape, rowMajorOffset]
  · rintro ⟨hvalid, htype, hshape⟩
    have hnum : (self.getVariable variableName).numVals = dim1 * dim2 * dim3 := by
      simp [NcVar.numVals, hshape, Nat.mul_assoc]
    rw [GetValues3_of_accepted self values dim1 dim2 dim3 variableName hvalid htype hshape]
    refine ⟨rfl, ?_, ?_⟩
    · rw [← hnum]
      exact NcVar.getVar_contents _ values
    · intro i j k hi hj hk
      have hlt := offset3_lt dim1 dim2 dim3 i j k hi hj hk
      have hoff : i * (dim2 * dim3) + (j * dim3 + k) = (i * dim2 + j) * dim3 + k := by ring
      simp [NcVar.getVar, NcVar.elementAt, hnum, hlt, hshape, rowMajorOffset, hoff]

/-- C2 on the sample container: the first A is float64 of shape (2, 3) and stores 10 .. 15; B is
float64 of shape (2, 2, 2) and stores 20 .. 27. -/
theorem GetValues_copies_contents_witness :
    ((sampleFile.GetValues2 sampleBuffer 2 3 "A").1 = true
      ∧ (List.range (2 * 3)).map (sampleFile.GetValues2 sampleBuffer 2 3 "A").2
          = (sampleFile.getVariable "A").contents
      ∧ (sampleFile.getVariable "A").contents = [10, 11, 12, 13, 14, 15])
    ∧ ((sampleFile.GetValues3 sampleBuffer 2 2 2 "B").1 = true
      ∧ (List.range (2 * 2 * 2)).map (sampleFile.GetValues3 sampleBuffer 2 2 2 "B").2
          = (sampleFile.getVariable "B").contents
      ∧ (sampleFile.getVariable "B").contents = [20, 21, 22, 23, 24, 25, 26, 27]) :=
  ⟨⟨((GetValues_copies_contents sampleFile sampleBuffer 2 3 0 "A").1
        ⟨by decide, by decide, by decide⟩).1,
      ((GetValues_copies_contents sampleFile sampleBuffer 2 3 0 "A").1
        ⟨by decide, by decide, by decide⟩).2.1, by decide⟩,
    ⟨((GetValues_copies_contents sampleFile sampleBuffer 2 2 2 "B").2
        ⟨by decide, by decide, by decide⟩).1,
      ((GetValues_copies_contents sampleFile sampleBuffer 2 2 2 "B").2
        ⟨by decide, by decide, by decide⟩).2.1, by decide⟩⟩

/-- C3: whenever GetValues returns true, the variable read holds exactly dim1*dim2 (respectively
dim1*dim2*dim3) values, these are what the cells below that index receive, and every cell at an
index greater than or equal to that product holds what it held before the call. -/
theorem GetValues_writes_exactly_the_requested_count (self : NetCDFFile) (values : Buffer)
    (dim1 dim2 dim3 : Nat) (variableName : String) :
    ((self.GetValues2 values dim1 dim2 variableName).1 = true →
      (self.getVariable variableName).numVals = dim1 * dim2
        ∧ (∀ k, k < dim1 * dim2 →
            (self.GetValues2 values dim1 dim2 variableName).2 k
              = (self.getVariable variableName).data k)
        ∧ ∀ k, dim1 * dim2 ≤ k →
            (self.GetValues2 values dim1 dim2 variableName).2 k = values k)
    ∧ ((self.GetValues3 values dim1 dim2 dim3 variableName).1 = true →
      (self.getVariable variableName).numVals = dim1 * dim2 * dim3
        ∧ (∀ k, k < dim1 * dim2 * dim3 →
            (self.GetValues3 values dim1 dim2 dim3 variableName).2 k
              = (self.getVariable variableName).data k)
        ∧ ∀ k, dim1 * dim2 * dim3 ≤ k →
            (self.GetValues3 values dim1 dim2 dim3 variableName).2 k = values k) := by
  constructor
  · intro h
    obtain ⟨hvalid, htype, hshape⟩ := GetValues2_true_inv self values dim1 dim2 variableName h
    have hnum : (self.getVariable variableName).numVals = dim1 * dim2 := by
      simp [NcVar.numVals, hshape]
    rw [GetValues2_of_accepted self values dim1 dim2 variableName hvalid htype hshape]
    refine ⟨hnum, ?_, ?_⟩
    · intro k hk
      simp [NcVar.getVar, hnum, hk]
    · intro k hk
      simp [NcVar.getVar, hnum, Nat.not_lt.mpr hk]
  · intro h
    obtain ⟨hvalid, htype, hshape⟩ :=
      GetValues3_true_inv self values dim1 dim2 dim3 variableName h
    have hnum : (self.getVariable variableName).numVals = dim1 * dim2 * dim3 := by
      simp [NcVar.numVals, hshape, Nat.mul_assoc]
    rw [GetValues3_of_accepted self values dim1 dim2 dim3 variableName hvalid htype hshape]
    refine ⟨hnum, ?_, ?_⟩
    · intro k hk
      simp [NcVar.getVar, hnum, hk]
    · intro k hk
      simp [NcVar.getVar, hnum, Nat.not_lt.mpr hk]

/-- C3 on the sample container: after the accepted reads of A (6 values) and B (8 values) the
cell right after the last value written is the one the destination had. -/
theorem GetValues_writes_exactly_the_requested_count_witness :
    ((sampleFile.GetValues2 sampleBuffer 2 3 "A").1 = true
      ∧ (sampleFile.GetValues2 sampleBuffer 2 3 "A").2 5 = 15
      ∧ (sampleFile.GetValues2 sampleBuffer 2 3 "A").2 6 = sampleBuffer 6)
    ∧ ((sampleFile.GetValues3 sampleBuffer 2 2 2 "B").1 = true
      ∧ (sampleFile.GetValues3 sampleBuffer 2 2 2 "B").2 7 = 27
      ∧ (sampleFile.GetValues3 sampleBuffer 2 2 2 "B").2 8 = sampleBuffer 8) :=
  ⟨⟨by decide, by decide,
      ((GetValues_writes_exactly_the_requested_count sampleFile sampleBuffer 2 3 0 "A").1
        (by decide)).2.2 6 (by decide)⟩,
    ⟨by decide, by decide,
      ((GetValues_writes_exactly_the_requested_count sampleFile sampleBuffer 2 2 2 "B").2
        (by decide)).2.2 8 (by decide)⟩⟩

/-! ## Claims on the name registries -/

/-- C4: for a non-empty name carried by at least one entry of a registry, getAttribute /
getDimension / getVariable returns the entry of the first pair, in iteration order, whose key
equals the name (no pair before it has that key, whatever follows it), and a second call with
the same name returns the same entry. -/
theorem lookup_returns_first_match (self : NetCDFFile) (name : String) (hname : name ≠ "") :
    ((∃ p ∈ self.file.getAtts, p.1 = name) →
      (∃ before entry after, self.file.getAtts = before ++ (name, entry) :: after
        ∧ (∀ p ∈ before, p.1 ≠ name) ∧ self.getAttribute name = entry)
      ∧ self.getAttribute name = self.getAttribute name)
    ∧ ((∃ p ∈ self.file.getDims, p.1 = name) →
      (∃ before entry after, self.file.getDims = before ++ (name, entry) :: after
        ∧ (∀ p ∈ before, p.1 ≠ name) ∧ self.getDimension name = entry)
      ∧ self.getDimension name = self.getDimension name)
    ∧ ((∃ p ∈ self.file.getVars, p.1 = name) →
      (∃ before entry after, self.file.getVars = before ++ (name, entry) :: after
        ∧ (∀ p ∈ before, p.1 ≠ name) ∧ self.getVariable name = entry)
      ∧ self.getVariable name = self.getVariable name) := by
  refine ⟨fun h => ⟨?_, rfl⟩, fun h => ⟨?_, rfl⟩, fun h => ⟨?_, rfl⟩⟩
  · simpa [NetCDFFile.getAttribute, hname] using
      firstMatch_of_present NcGroupAtt.null name self.file.getAtts h
  · simpa [NetCDFFile.getDimension, hname] using
      firstMatch_of_present NcDim.null name self.file.getDims h
  · simpa [NetCDFFile.getVariable, hname] using
      firstMatch_of_present NcVar.null name self.file.getVars h

/-- C4 on the sample container, where "Title", "M" and "A" are each stored twice: the lookups
return the first of the two entries. -/
theorem lookup_returns_first_match_witness :
    ("M" ≠ "" ∧ (∃ p ∈ sampleFile.file.getDims, p.1 = "M")
      ∧ ∃ before entry after, sampleFile.file.getDims = before ++ ("M", entry) :: after
        ∧ (∀ p ∈ before, p.1 ≠ "M") ∧ sampleFile.getDimension "M" = entry)
    ∧ sampleFile.getDimension "M" = mkDim "M" 3
    ∧ sampleFile.getAttribute "Title" = mkAtt "Title" "first"
    ∧ (sampleFile.getVariable "A").shape = [2, 3] :=
  ⟨⟨by decide, ⟨("M", mkDim "M" 3), by decide, rfl⟩,
      ((lookup_returns_first_match sampleFile "M" (by decide)).2.1
        ⟨("M", mkDim "M" 3), by decide, rfl⟩).1⟩,
    by decide, by decide, by decide⟩

/-- C5: with the empty name every lookup returns the null object, whatever the registries hold,
and HasAttribute, HasDimension and HasVariable are false. -/
theorem lookup_of_empty_name_is_null (self : NetCDFFile) :
    self.getAttribute "" = NcGroupAtt.null
      ∧ self.getDimension "" = NcDim.null
      ∧ self.getVariable "" = NcVar.null
      ∧ self.HasAttribute "" = false
      ∧ self.HasDimension "" = false
      ∧ self.HasVariable "" = false := by
  simp [NetCDFFile.getAttribute, NetCDFFile.getDimension, NetCDFFile.getVariable,
    NetCDFFile.HasAttribute, NetCDFFile.HasDimension, NetCDFFile.HasVariable,
    NcUtils.IsValidAtt, NcUtils.IsValidDim, NcUtils.IsValidVar,
    NcGroupAtt.null, NcDim.null, NcVar.null]

/-- C6: for a name that is the key of no pair of a registry, the lookup in that registry returns
the null object and the matching Has query is false; every function involved is total. -/
theorem lookup_of_absent_name_is_null (self : NetCDFFile) (name : String) :
    ((∀ p ∈ self.file.getAtts, p.1 ≠ name) →
      self.getAttribute name = NcGroupAtt.null ∧ self.HasAttribute name = false)
    ∧ ((∀ p ∈ self.file.getDims, p.1 ≠ name) →
      self.getDimension name = NcDim.null ∧ self.HasDimension name = false)
    ∧ ((∀ p ∈ self.file.getVars, p.1 ≠ name) →
      self.getVariable name = NcVar.null ∧ self.HasVariable name = false) := by
  refine ⟨fun h => ?_, fun h => ?_, fun h => ?_⟩
  · have hget : self.getAttribute name = NcGroupAtt.null := by
      unfold NetCDFFile.getAttribute
      split
      · rfl
      · exact firstMatch_of_absent _ _ _ h
    exact ⟨hget, by simp [NetCDFFile.HasAttribute, hget, NcUtils.IsValidAtt, NcGroupAtt.null]⟩
  · have hget : self.getDimension name = NcDim.null := by
      unfold NetCDFFile.getDimension
      split
      · rfl
      · exact firstMatch_of_absent _ _ _ h
    exact ⟨hget, by simp [NetCDFFile.HasDimension, hget, NcUtils.IsValidDim, NcDim.null]⟩
  · have hget : self.getVariable name = NcVar.null := by
      unfold NetCDFFile.getVariable
      split
      · rfl
      · exact firstMatch_of_absent _ _ _ h
    exact ⟨hget, by simp [NetCDFFile.HasVariable, hget, NcUtils.IsValidVar, NcVar.null]⟩

/-- C6 on the sample container, which has no attribute "Comment", no dimension "N" and no
variable "Q". -/
theorem lookup_of_absent_name_is_null_witness :
    ((∀ p ∈ sampleFile.file.getAtts, p.1 ≠ "Comment")
      ∧ sampleFile.getAttribute "Comment" = NcGroupAtt.null
      ∧ sampleFile.HasAttribute "Comment" = false)
    ∧ ((∀ p ∈ sampleFile.file.getDims, p.1 ≠ "N")
      ∧ sampleFile.getDimension "N" = NcDim.null ∧ sampleFile.HasDimension "N" = false)
    ∧ ((∀ p ∈ sampleFile.file.getVars, p.1 ≠ "Q")
      ∧ sampleFile.getVariable "Q" = NcVar.null ∧ sampleFile.HasVariable "Q" = false) :=
  ⟨⟨by decide,
      (lookup_of_absent_name_is_null sampleFile "Comment").1 (by decide)⟩,
    ⟨by decide, (lookup_of_absent_name_is_null sampleFile "N").2.1 (by decide)⟩,
    ⟨by simp [sampleFile, NcFile.getVars],
      (lookup_of_absent_name_is_null sampleFile "Q").2.2 (by simp [sampleFile, NcFile.getVars])⟩⟩

/-! ## Claims on the counts and on the shape validator -/

theorem toUnsignedInt_smax (n : Int) (hlo : -(2 : Int) ^ 31 ≤ n) (hhi : n < (2 : Int) ^ 31) :
    (NetCDFFile.toUnsignedInt (smax 0 n) : Int) = max 0 n := by
  have hpow : (2 : Int) ^ 32 = 4294967296 := by norm_num
  have hpow31 : (2 : Int) ^ 31 = 2147483648 := by norm_num
  rw [hpow31] at hlo hhi
  unfold NetCDFFile.toUnsignedInt smax
  rw [hpow]
  by_cases hpos : 0 > n
  · rw [if_pos hpos, max_eq_left (le_of_lt hpos)]
    rfl
  · have hnonneg : 0 ≤ n := not_lt.mp hpos
    have hmod : n % 4294967296 = n := Int.emod_eq_of_lt hnonneg (by omega)
    rw [if_neg hpos, max_eq_right hnonneg, hmod]
    exact Int.toNat_of_nonneg hnonneg

/-- C7: for every count n in the range of a signed 32-bit integer reported by the storage,
GetNumGlobalAttributes, GetNumDimensions and GetNumVariables return max(0, n): n itself when n is
non-negative and 0 when n is negative. -/
theorem counts_are_clamped_at_zero (self : NetCDFFile) :
    ((-(2 : Int) ^ 31 ≤ self.file.getAttCount ∧ self.file.getAttCount < (2 : Int) ^ 31) →
      (self.GetNumGlobalAttributes : Int) = max 0 self.file.getAttCount
        ∧ (0 ≤ self.file.getAttCount →
            (self.GetNumGlobalAttributes : Int) = self.file.getAttCount)
        ∧ (self.file.getAttCount < 0 → self.GetNumGlobalAttributes = 0))
    ∧ ((-(2 : Int) ^ 31 ≤ self.file.getDimCount ∧ self.file.getDimCount < (2 : Int) ^ 31) →
      (self.GetNumDimensions : Int) = max 0 self.file.getDimCount
        ∧ (0 ≤ self.file.getDimCount → (self.GetNumDimensions : Int) = self.file.getDimCount)
        ∧ (self.file.getDimCount < 0 → self.GetNumDimensions = 0))
    ∧ ((-(2 : Int) ^ 31 ≤ self.file.getVarCount ∧ self.file.getVarCount < (2 : Int) ^ 31) →
      (self.GetNumVariables : Int) = max 0 self.file.getVarCount
        ∧ (0 ≤ self.file.getVarCount → (self.GetNumVariables : Int) = self.file.getVarCount)
        ∧ (self.file.getVarCount < 0 → self.GetNumVariables = 0)) := by
  have key : ∀ n : Int, -(2 : Int) ^ 31 ≤ n → n < (2 : Int) ^ 31 →
      (NetCDFFile.toUnsignedInt (smax 0 n) : Int) = max 0 n
        ∧ (0 ≤ n → (NetCDFFile.toUnsignedInt (smax 0 n) : Int) = n)
        ∧ (n < 0 → NetCDFFile.toUnsignedInt (smax 0 n) = 0) := by
    intro n hlo hhi
    have h := toUnsignedInt_smax n hlo hhi
    refine ⟨h, fun hn => ?_, fun hn => ?_⟩
    · rw [h]
      exact max_eq_right hn
    · rw [max_eq_left (le_of_lt hn)] at h
      exact_mod_cast h
  exact ⟨fun h => key _ h.1 h.2, fun h => key _ h.1 h.2, fun h => key _ h.1 h.2⟩

/-- C7 on a storage that reports the error sentinel -1 for each count: the three counts are 0;
and on the sample container, whose storage reports 7 variables: the count is 7. -/
theorem counts_are_clamped_at_zero_witness :
    (-(2 : Int) ^ 31 ≤ faultyFile.file.getAttCount
      ∧ faultyFile.file.getAttCount < (2 : Int) ^ 31 ∧ faultyFile.file.getAttCount < 0)
    ∧ faultyFile.GetNumGlobalAttributes = 0
    ∧ faultyFile.GetNumDimensions = 0
    ∧ faultyFile.GetNumVariables = 0
    ∧ (sampleFile.GetNumVariables : Int) = 7 :=
  ⟨by decide,
    ((counts_are_clamped_at_zero faultyFile).1 (by decide)).2.2 (by decide),
    ((counts_are_clamped_at_zero faultyFile).2.1 (by decide)).2.2 (by decide),
    ((counts_are_clamped_at_zero faultyFile).2.2 (by decide)).2.2 (by decide),
    ((counts_are_clamped_at_zero sampleFile).2.2 (by decide)).2.1 (by decide)⟩

/-- C8: VariableHasDimensions with two (respectively three) sizes is true exactly when the
looked-up variable is valid, has rank 2 (respectively 3), and its axis sizes in declared order
are the sizes passed, in the order passed. -/
theorem VariableHasDimensions_iff_exact_shape (self : NetCDFFile) (dim1 dim2 dim3 : Nat)
    (variableName : String) :
    (self.VariableHasDimensions2 dim1 dim2 variableName = true
      ↔ (self.getVariable variableName).isNull = false
        ∧ (self.getVariable variableName).getDimCount = 2
        ∧ (self.getVariable variableName).shape = [dim1, dim2])
    ∧ (self.VariableHasDimensions3 dim1 dim2 dim3 variableName = true
      ↔ (self.getVariable variableName).isNull = false
        ∧ (self.getVariable variableName).getDimCount = 3
        ∧ (self.getVariable variableName).shape = [dim1, dim2, dim3]) := by
  have hrank : ∀ (var : NcVar) (l : List Nat), var.shape = l → var.getDimCount = l.length := by
    intro var l h
    rw [← h]
    simp [NcVar.shape, NcVar.getDimCount]
  constructor
  · unfold NetCDFFile.VariableHasDimensions2
    rw [NcUtils.HasDimensions2_iff]
    exact ⟨fun h => ⟨h.1, hrank _ _ h.2, h.2⟩, fun h => ⟨h.1, h.2.2⟩⟩
  · unfold NetCDFFile.VariableHasDimensions3
    rw [NcUtils.HasDimensions3_iff]
    exact ⟨fun h => ⟨h.1, hrank _ _ h.2, h.2⟩, fun h => ⟨h.1, h.2.2⟩⟩

/-- C9: VariableHasDimension is true exactly when the looked-up variable is valid, has rank 1,
and its single axis has the size passed; for the variable V of shape (3) of the sample container
it is true for size 3 and false for size 4. -/
theorem VariableHasDimension_iff_rank_one (self : NetCDFFile) (dim : Nat)
    (variableName : String) :
    (self.VariableHasDimension dim variableName = true
      ↔ (self.getVariable variableName).isNull = false
        ∧ (self.getVariable variableName).getDimCount = 1
        ∧ (self.getVariable variableName).shape = [dim])
    ∧ sampleFile.VariableHasDimension 3 "V" = true
    ∧ sampleFile.VariableHasDimension 4 "V" = false := by
  refine ⟨?_, by decide, by decide⟩
  unfold NetCDFFile.VariableHasDimension
  rw [NcUtils.HasDimension_iff]
  constructor
  · intro h
    refine ⟨h.1, ?_, h.2⟩
    have hlen := congrArg List.length h.2
    simpa [NcVar.shape, NcVar.getDimCount] using hlen
  · exact fun h => ⟨h.1, h.2.2⟩

/-- C10: for a variable name that is empty or the key of no pair of the variable registry,
GetVariableDimensionality returns -1 and GetVariableDimensions leaves the vector empty whatever
it held; for a name that resolves to a valid variable the dimensionality is non-negative and is
the length of the vector GetVariableDimensions produces, which lists the axis sizes in declared
order. -/
theorem dimensionality_and_dimensions_agree (self : NetCDFFile) (dims : List Nat)
    (variableName : String) :
    ((variableName = "" ∨ ∀ p ∈ self.file.getVars, p.1 ≠ variableName) →
      self.GetVariableDimensionality variableName = -1
        ∧ self.GetVariableDimensions dims variableName = [])
    ∧ ((self.getVariable variableName).isNull = false →
      0 ≤ self.GetVariableDimensionality variableName
        ∧ self.GetVariableDimensionality variableName
            = ((self.GetVariableDimensions dims variableName).length : Int)
        ∧ self.GetVariableDimensions dims variableName
            = (self.getVariable variableName).dims.map NcDim.getSize) := by
  constructor
  · intro h
    have hget : self.getVariable variableName = NcVar.null := by
      rcases h with h | h
      · simp [NetCDFFile.getVariable, h]
      · unfold NetCDFFile.getVariable
        split
        · rfl
        · exact firstMatch_of_absent _ _ _ h
    simp [NetCDFFile.GetVariableDimensionality, NetCDFFile.GetVariableDimensions, hget,
      NcUtils.GetDimensionality, NcUtils.GetDimensions, NcUtils.IsValidVar, NcVar.null]
  · intro h
    have hdims := NcUtils.GetDimensions_of_valid dims (self.getVariable variableName) h
    unfold NetCDFFile.GetVariableDimensions NetCDFFile.GetVariableDimensionality
    simp only [hdims]
    simp [NcUtils.GetDimensionality, NcUtils.IsValidVar, h, NcVar.shape, NcVar.getDimCount]

/-- C10 on the sample container: no variable is named "Q"; B has shape (2, 2, 2); S has rank 0,
which is told apart from the -1 of a missing variable. -/
theorem dimensionality_and_dimensions_agree_witness :
    ((∀ p ∈ sampleFile.file.getVars, p.1 ≠ "Q")
      ∧ sampleFile.GetVariableDimensionality "Q" = -1
      ∧ sampleFile.GetVariableDimensions [7, 7] "Q" = [])
    ∧ ((sampleFile.getVariable "B").isNull = false
      ∧ sampleFile.GetVariableDimensionality "B" = 3
      ∧ sampleFile.GetVariableDimensions [7, 7] "B" = [2, 2, 2])
    ∧ sampleFile.GetVariableDimensionality "S" = 0 :=
  ⟨⟨by simp [sampleFile, NcFile.getVars],
      (dimensionality_and_dimensions_agree sampleFile [7, 7] "Q").1
        (Or.inr (by simp [sampleFile, NcFile.getVars]))⟩,
    ⟨by decide, by decide,
      (((dimensionality_and_dimensions_agree sampleFile [7, 7] "B").2 (by decide)).2.2).trans
        (by decide)⟩,
    by decide⟩

/-! ## The by-name getters against the lookup loop -/

theorem charsLess_irrefl (l : List Char) : charsLess l l = false := by
  induction l with
  | nil => rfl
  | cons a as ih => simp [charsLess, ih]

theorem charsLess_trichotomy (l m : List Char) (hlm : charsLess l m = false)
    (hml : charsLess m l = false) : l = m := by
  induction l generalizing m with
  | nil =>
    cases m with
    | nil => rfl
    | cons b bs => simp [charsLess] at hlm
  | cons a as ih =>
    cases m with
    | nil => simp [charsLess] at hml
    | cons b bs =>
      simp only [charsLess] at hlm hml
      by_cases hab : a < b
      · simp [hab] at hlm
      · by_cases hba : b < a
        · simp [hba] at hml
        · have hsame : a = b := le_antisymm (not_lt.mp hba) (not_lt.mp hab)
          subst hsame
          simp [hab] at hlm
          rw [ih bs hlm (by simpa [hab] using hml)]

theorem stringLess_irrefl (a : String) : stringLess a a = false :=
  charsLess_irrefl a.data

theorem stringLess_trichotomy (a b : String) (hab : stringLess a b = false)
    (hba : stringLess b a = false) : a = b :=
  String.ext (charsLess_trichotomy a.data b.data hab hba)

/-- On a multimap, whose keys are ordered, the start of `equal_range(name)` is the entry the
linear scan stops at, and both give the null object when no pair has the key. -/
theorem equalRangeFirst_eq_firstMatch {α : Type} (nullObject : α) (queried : String)
    (registry : List (String × α)) (h : KeysOrdered registry) :
    equalRangeFirst nullObject queried registry = firstMatch nullObject queried registry := by
  induction registry with
  | nil => rfl
  | cons p rest ih =>
    obtain ⟨key, entry⟩ := p
    unfold KeysOrdered at h
    have hpair := List.pairwise_cons.mp h
    by_cases hless : stringLess key queried = true
    · have hne : key ≠ queried := by
        intro hsame
        subst hsame
        rw [stringLess_irrefl] at hless
        exact absurd hless (by decide)
      simp [equalRangeFirst, firstMatch, hless, hne, ih hpair.2]
    · by_cases hsame : key = queried
      · subst hsame
        simp [equalRangeFirst, firstMatch, stringLess_irrefl]
      · have habsent : ∀ q ∈ rest, q.1 ≠ queried := by
          intro q hq hqe
          have hback : stringLess q.1 key = false := hpair.1 q hq
          rw [hqe] at hback
          exact hsame (stringLess_trichotomy key queried (by simpa using hless) hback)
        simp [equalRangeFirst, firstMatch, hless, hsame,
          firstMatch_of_absent _ _ _ habsent]

theorem getVariable_of_empty_or_absent (self : NetCDFFile) (variableName : String)
    (h : variableName = "" ∨ ∀ p ∈ self.file.getVars, p.1 ≠ variableName) :
    self.getVariable variableName = NcVar.null := by
  rcases h with h | h
  · simp [NetCDFFile.getVariable, h]
  · unfold NetCDFFile.getVariable
    split
    · rfl
    · exact firstMatch_of_absent _ _ _ h

theorem getAttribute_of_empty_or_absent (self : NetCDFFile) (attributeName : String)
    (h : attributeName = "" ∨ ∀ p ∈ self.file.getAtts, p.1 ≠ attributeName) :
    self.getAttribute attributeName = NcGroupAtt.null := by
  rcases h with h | h
  · simp [NetCDFFile.getAttribute, h]
  · unfold NetCDFFile.getAttribute
    split
    · rfl
    · exact firstMatch_of_absent _ _ _ h

theorem getDimension_of_empty_or_absent (self : NetCDFFile) (dimensionName : String)
    (h : dimensionName = "" ∨ ∀ p ∈ self.file.getDims, p.1 ≠ dimensionName) :
    self.getDimension dimensionName = NcDim.null := by
  rcases h with h | h
  · simp [NetCDFFile.getDimension, h]
  · unfold NetCDFFile.getDimension
    split
    · rfl
    · exact firstMatch_of_absent _ _ _ h

theorem lookup_has_of_empty (self : NetCDFFile) :
    self.HasAttribute "" = false ∧ self.HasDimension "" = false
      ∧ self.HasVariable "" = false := by
  simp [NetCDFFile.getAttribute, NetCDFFile.getDimension, NetCDFFile.getVariable,
    NetCDFFile.HasAttribute, NetCDFFile.HasDimension, NetCDFFile.HasVariable,
    NcUtils.IsValidAtt, NcUtils.IsValidDim, NcUtils.IsValidVar,
    NcGroupAtt.null, NcDim.null, NcVar.null]

/-! ## Claims on the type classifier and on the value accessors -/

/-- C11: for an attribute name that is empty or the key of no pair of the attribute registry the
seven type predicates are false and GetAttributeType is the no-type value; for a variable name
that is empty or the key of no pair of the variable registry GetVariableType is the no-type
value and HasVariableType is false for every type. -/
theorem type_queries_on_missing_entry (self : NetCDFFile) (name : String) :
    ((name = "" ∨ ∀ p ∈ self.file.getAtts, p.1 ≠ name) →
      self.IsAttributeFloat name = false
        ∧ self.IsAttributeDouble name = false
        ∧ self.IsAttributeByte name = false
        ∧ self.IsAttributeChar name = false
        ∧ self.IsAttributeShort name = false
        ∧ self.IsAttributeInt name = false
        ∧ self.IsAttributeInt64 name = false
        ∧ self.GetAttributeType name = NcType.noType)
    ∧ ((name = "" ∨ ∀ p ∈ self.file.getVars, p.1 ≠ name) →
      self.GetVariableType name = NcType.noType
        ∧ ∀ type_, self.HasVariableType type_ name = false) := by
  constructor
  · intro h
    have hget := getAttribute_of_empty_or_absent self name h
    simp [NetCDFFile.IsAttributeFloat, NetCDFFile.IsAttributeDouble,
      NetCDFFile.IsAttributeByte, NetCDFFile.IsAttributeChar, NetCDFFile.IsAttributeShort,
      NetCDFFile.IsAttributeInt, NetCDFFile.IsAttributeInt64, NetCDFFile.GetAttributeType,
      NcUtils.IsFloatAtt, NcUtils.IsDoubleAtt, NcUtils.IsByteAtt, NcUtils.IsCharAtt,
      NcUtils.IsShortAtt, NcUtils.IsIntAtt, NcUtils.IsInt64Att, NcUtils.CheckTypeAtt,
      NcUtils.GetTypeAtt, NcUtils.IsValidAtt, hget, NcGroupAtt.null]
  · intro h
    have hget := getVariable_of_empty_or_absent self name h
    simp [NetCDFFile.GetVariableType, NetCDFFile.HasVariableType, NcUtils.GetTypeVar,
      NcUtils.CheckTypeVar, NcUtils.IsValidVar, hget, NcVar.null]

/-- C11 on the sample container: it has no attribute "Comment" and no variable "Q"; its
attribute stored under the empty name is of character type, yet the empty name finds none. -/
theorem type_queries_on_missing_entry_witness :
    ((∀ p ∈ sampleFile.file.getAtts, p.1 ≠ "Comment")
      ∧ sampleFile.IsAttributeChar "Comment" = false
      ∧ sampleFile.GetAttributeType "Comment" = NcType.noType)
    ∧ sampleFile.IsAttributeChar "" = false
    ∧ sampleFile.IsAttributeChar "Title" = true
    ∧ ((∀ p ∈ sampleFile.file.getVars, p.1 ≠ "Q")
      ∧ sampleFile.GetVariableType "Q" = NcType.noType
      ∧ sampleFile.HasVariableType NcType.noType "Q" = false) :=
  ⟨⟨by decide,
      ((type_queries_on_missing_entry sampleFile "Comment").1 (Or.inr (by decide))).2.2.2.1,
      ((type_queries_on_missing_entry sampleFile "Comment").1
        (Or.inr (by decide))).2.2.2.2.2.2.2⟩,
    ((type_queries_on_missing_entry sampleFile "").1 (Or.inl rfl)).2.2.2.1,
    by decide,
    ⟨by simp [sampleFile, NcFile.getVars],
      ((type_queries_on_missing_entry sampleFile "Q").2
        (Or.inr (by simp [sampleFile, NcFile.getVars]))).1,
      ((type_queries_on_missing_entry sampleFile "Q").2
        (Or.inr (by simp [sampleFile, NcFile.getVars]))).2 NcType.noType⟩⟩

/-- C12: HasDimension is false when the name is empty, or the key of no pair of the dimension
registry, or resolves to a null entry; and whenever HasDimension is false GetDimension returns 0
and asks the storage for no size. -/
theorem GetDimension_without_dimension (self : NetCDFFile) (name : String) :
    ((name = "" ∨ (∀ p ∈ self.file.getDims, p.1 ≠ name)
        ∨ (self.getDimension name).isNull = true) →
      self.HasDimension name = false)
    ∧ (self.HasDimension name = false →
      (self.GetDimension name).1 = 0 ∧ (self.GetDimension name).2 = []) := by
  constructor
  · intro h
    have hnull : (self.getDimension name).isNull = true := by
      rcases h with h | h | h
      · rw [getDimension_of_empty_or_absent self name (Or.inl h)]
        rfl
      · rw [getDimension_of_empty_or_absent self name (Or.inr h)]
        rfl
      · exact h
    simp [NetCDFFile.HasDimension, NcUtils.IsValidDim, hnull]
  · intro h
    simp [NetCDFFile.GetDimension, h]

/-- C12 on the sample container: no dimension is named "N", and the dimension of size 9 stored
under the empty name is not found by the empty name. -/
theorem GetDimension_without_dimension_witness :
    ((∀ p ∈ sampleFile.file.getDims, p.1 ≠ "N") ∧ sampleFile.HasDimension "N" = false
      ∧ (sampleFile.GetDimension "N").1 = 0 ∧ (sampleFile.GetDimension "N").2 = [])
    ∧ (sampleFile.HasDimension "" = false
      ∧ (sampleFile.GetDimension "").1 = 0 ∧ (sampleFile.GetDimension "").2 = []) :=
  ⟨⟨by decide,
      (GetDimension_without_dimension sampleFile "N").1 (Or.inr (Or.inl (by decide))),
      (GetDimension_without_dimension sampleFile "N").2 (by decide)⟩,
    ⟨(GetDimension_without_dimension sampleFile "").1 (Or.inl rfl),
      (GetDimension_without_dimension sampleFile "").2 (by decide)⟩⟩

/-- C13: whenever HasAttribute is false for a name, GetAttributeValueAsString returns the empty
string for it. -/
theorem GetAttributeValueAsString_without_attribute (self : NetCDFFile) (name : String)
    (h : self.HasAttribute name = false) : self.GetAttributeValueAsString name = "" := by
  simp [NetCDFFile.GetAttributeValueAsString, h]

/-- C13 on the sample container, which has no attribute named "Comment". -/
theorem GetAttributeValueAsString_without_attribute_witness :
    sampleFile.HasAttribute "Comment" = false
      ∧ sampleFile.GetAttributeValueAsString "Comment" = "" :=
  ⟨by decide, GetAttributeValueAsString_without_attribute sampleFile "Comment" (by decide)⟩

/-- C14, at the failing input: with two variables named A, of shapes (2, 3) and (4),
PrintAllVariables prints the sizes of the first A on both lines, where the dump worded by the
specification shows (4) on the second line; on a registry without repeated names the two
agree. -/
theorem PrintAllVariables_repeats_first_shape_on_duplicates :
    duplicateVarsFile.PrintAllVariables "" = "A = (2,3)\nA = (2,3)\n"
      ∧ dumpVariablesSpec duplicateVarsFile.file.getVars = "A = (2,3)\nA = (4)\n"
      ∧ duplicateVarsFile.PrintAllVariables ""
          ≠ dumpVariablesSpec duplicateVarsFile.file.getVars
      ∧ distinctVarsFile.PrintAllVariables ""
          = dumpVariablesSpec distinctVarsFile.file.getVars
      ∧ distinctVarsFile.PrintAllVariables "" = "B = (2,2,2)\nS = ()\nV = (3)\n" := by
  refine ⟨by decide, by decide, by decide, by decide, by decide⟩

/-- C15, refuted as stated: V of the sample container is a valid float64 variable of shape (3),
and no choice of sizes makes either GetValues overload, the only bulk reads there are, return
true for it. -/
theorem GetValues_rank_one_counterexample :
    (sampleFile.getVariable "V").isNull = false
      ∧ (sampleFile.getVariable "V").type = NcType.nc_DOUBLE
      ∧ (sampleFile.getVariable "V").shape = [3]
      ∧ ¬ ∃ dim1 dim2 dim3,
          (sampleFile.GetValues2 sampleBuffer dim1 dim2 "V").1 = true
            ∨ (sampleFile.GetValues3 sampleBuffer dim1 dim2 dim3 "V").1 = true := by
  have hV : (sampleFile.getVariable "V").shape = [3] := by decide
  refine ⟨by decide, by decide, hV, ?_⟩
  rintro ⟨dim1, dim2, dim3, h | h⟩
  · have hshape := (GetValues2_true_inv sampleFile sampleBuffer dim1 dim2 "V" h).2.2
    rw [hV] at hshape
    simp at hshape
  · have hshape := (GetValues3_true_inv sampleFile sampleBuffer dim1 dim2 dim3 "V" h).2.2
    rw [hV] at hshape
    simp at hshape

/-- C15, amended: the bulk reads are the two-size and the three-size GetValues only, and for a
variable of rank 1 both return false and leave every cell of the destination as it was, whatever
sizes are passed. -/
theorem GetValues_refuses_rank_one (self : NetCDFFile) (values : Buffer)
    (dim1 dim2 dim3 : Nat) (variableName : String)
    (hrank : (self.getVariable variableName).getDimCount = 1) :
    ((self.GetValues2 values dim1 dim2 variableName).1 = false
        ∧ ∀ k, (self.GetValues2 values dim1 dim2 variableName).2 k = values k)
    ∧ ((self.GetValues3 values dim1 dim2 dim3 variableName).1 = false
        ∧ ∀ k, (self.GetValues3 values dim1 dim2 dim3 variableName).2 k = values k) := by
  have hlen : (self.getVariable variableName).shape.length = 1 := by
    simpa [NcVar.shape, NcVar.getDimCount] using hrank
  have h2 : (self.getVariable variableName).shape ≠ [dim1, dim2] := by
    intro hshape
    rw [hshape] at hlen
    simp at hlen
  have h3 : (self.getVariable variableName).shape ≠ [dim1, dim2, dim3] := by
    intro hshape
    rw [hshape] at hlen
    simp at hlen
  rw [GetValues2_of_refused self values dim1 dim2 variableName (Or.inr (Or.inr h2)),
    GetValues3_of_refused self values dim1 dim2 dim3 variableName (Or.inr (Or.inr h3))]
  exact ⟨⟨rfl, fun _ => rfl⟩, ⟨rfl, fun _ => rfl⟩⟩

/-- C15, amended, on the sample container: V has rank 1 and extent 3; the reads with sizes
(3, 1) and (3, 1, 1) are refused and the first cell still holds what it held. -/
theorem GetValues_refuses_rank_one_witness :
    (sampleFile.getVariable "V").getDimCount = 1
      ∧ (sampleFile.GetValues2 sampleBuffer 3 1 "V").1 = false
      ∧ (sampleFile.GetValues2 sampleBuffer 3 1 "V").2 0 = sampleBuffer 0
      ∧ (sampleFile.GetValues3 sampleBuffer 3 1 1 "V").1 = false :=
  ⟨by decide,
    (GetValues_refuses_rank_one sampleFile sampleBuffer 3 1 1 "V" (by decide)).1.1,
    (GetValues_refuses_rank_one sampleFile sampleBuffer 3 1 1 "V" (by decide)).1.2 0,
    (GetValues_refuses_rank_one sampleFile sampleBuffer 3 1 1 "V" (by decide)).2.1⟩

/-- C16: on a container whose multimaps are ordered by key, as every multimap is, for a name
with HasDimension true GetDimension returns the size of the entry getDimension returns, and it
is that entry whose size it asks for; for a name with HasAttribute true
GetAttributeValueAsString returns the string value of the entry getAttribute returns; repeated
names included. -/
theorem accessors_read_the_first_match (self : NetCDFFile) (name : String) :
    (KeysOrdered self.file.getDims → self.HasDimension name = true →
      (self.GetDimension name).1 = (self.getDimension name).getSize
        ∧ (self.GetDimension name).2 = [self.getDimension name])
    ∧ (KeysOrdered self.file.getAtts → self.HasAttribute name = true →
      self.GetAttributeValueAsString name
        = NcUtils.GetAttributeValueAsString (self.getAttribute name)) := by
  constructor
  · intro hord hhas
    have hname : name ≠ "" := by
      intro hempty
      rw [hempty, (lookup_has_of_empty self).2.1] at hhas
      exact absurd hhas (by decide)
    have hsame : self.file.getDim name = self.getDimension name := by
      simp [NcFile.getDim, NetCDFFile.getDimension, hname,
        equalRangeFirst_eq_firstMatch _ _ _ hord]
    simp [NetCDFFile.GetDimension, hhas, hsame]
  · intro hord hhas
    have hname : name ≠ "" := by
      intro hempty
      rw [hempty, (lookup_has_of_empty self).1] at hhas
      exact absurd hhas (by decide)
    have hsame : self.file.getAtt name = self.getAttribute name := by
      simp [NcFile.getAtt, NetCDFFile.getAttribute, hname,
        equalRangeFirst_eq_firstMatch _ _ _ hord]
    simp [NetCDFFile.GetAttributeValueAsString, hhas, hsame]

/-- C16 on the sample container, where "M" is stored twice (sizes 3 and 5) and "Title" twice
(values "first" and "second"). -/
theorem accessors_read_the_first_match_witness :
    (KeysOrdered sampleFile.file.getDims ∧ sampleFile.HasDimension "M" = true
      ∧ (sampleFile.GetDimension "M").1 = (sampleFile.getDimension "M").getSize
      ∧ (sampleFile.getDimension "M").getSize = 3)
    ∧ (KeysOrdered sampleFile.file.getAtts ∧ sampleFile.HasAttribute "Title" = true
      ∧ sampleFile.GetAttributeValueAsString "Title"
          = NcUtils.GetAttributeValueAsString (sampleFile.getAttribute "Title")
      ∧ NcUtils.GetAttributeValueAsString (sampleFile.getAttribute "Title") = "first") :=
  ⟨⟨by decide, by decide,
      ((accessors_read_the_first_match sampleFile "M").1 (by decide) (by decide)).1,
      by decide⟩,
    ⟨by decide, by decide,
      (accessors_read_the_first_match sampleFile "Title").2 (by decide) (by decide),
      by decide⟩⟩

end sofa
